import Mathlib

/-!
Verification of the indexing and retrieval pipeline of `recall.py`
(semantic memory layer: chunking, change detection, indexing with
stale-entry replacement, directory traversal, search ranking, and the
command dispatcher).  Python text is modelled as `List Char`, Python
ints as `Int`/`Nat`, the vector store as a list of chunk records, and
fallible operations as `Except Unit` (an `error` models a propagating
Python exception).
-/

namespace Recall

/-- Whitespace recognised by Python's `str.strip` (ASCII range). -/
def isPySpace (c : Char) : Bool :=
  c == ' ' || c == '\t' || c == '\n' || c == '\r' || c == '\x0b' || c == '\x0c'

/-- Python `s.strip()`: drop whitespace from both ends. -/
def pyStrip (s : List Char) : List Char :=
  ((s.dropWhile isPySpace).reverse.dropWhile isPySpace).reverse

/-- Normalise one bound of a Python slice `s[a:b]` for a list of length `n`:
negative indices count from the end and both bounds clamp into `[0, n]`. -/
def pyIdx (n : Nat) (i : Int) : Nat :=
  if i < 0 then ((n : Int) + i).toNat else min i.toNat n

/-- Python slice `s[a:b]`. -/
def pySlice (s : List Char) (a b : Int) : List Char :=
  (s.take (pyIdx s.length b)).drop (pyIdx s.length a)

/-- Loop body of `chunk_text` (recall.py lines 44-54), fuel-indexed because
the source loop has no guard against a non-positive advance step and need
not terminate: `none` means the fuel ran out before the loop exited. -/
def chunkTextGo (text : List Char) (chunk_size overlap : Int) :
    Int → Nat → Option (List (List Char))
  | _, 0 => none
  | start, fuel + 1 =>
    if start < (text.length : Int) then
      let en := start + chunk_size
      let ch := pySlice text start en
      match chunkTextGo text chunk_size overlap (en - overlap) fuel with
      | none => none
      | some rest => some (if (pyStrip ch).isEmpty then rest else ch :: rest)
    else
      some []

/-- Function `chunk_text(text, chunk_size=500, overlap=50)`: the loop started
at position 0.  Fuel `text.length + 1` suffices whenever the advance step
`chunk_size - overlap` is positive. -/
def chunk_text (text : List Char) (chunk_size : Int := 500) (overlap : Int := 50) :
    Option (List (List Char)) :=
  chunkTextGo text chunk_size overlap 0 (text.length + 1)

/-- Modelled from the spec (section 4.1): the windows `text[start : start+size]`
for `start = 0, k, 2k, ...` with `k = size - overlap`, while `start` is below
the text length.  Used to compare the source chunker against the spec. -/
def specWindows (text : List Char) (size overlap : Nat) (start : Nat) :
    List (List Char) :=
  if h : overlap < size ∧ start < text.length then
    pySlice text (start : Int) ((start : Int) + (size : Int)) ::
      specWindows text size overlap (start + (size - overlap))
  else []
termination_by text.length - start
decreasing_by
  simp_wf
  omega

/-- With a non-positive advance step the loop never leaves `start < length`:
every fuel bound is exhausted. -/
theorem chunkTextGo_stuck (text : List Char) (cs ov : Int) (hle : cs ≤ ov) :
    ∀ (fuel : Nat) (start : Int), start < (text.length : Int) →
      chunkTextGo text cs ov start fuel = none := by
  intro fuel
  induction fuel with
  | zero => intro start _; rfl
  | succ n ih =>
    intro start hs
    have hs2 : start + cs - ov < (text.length : Int) := by omega
    simp only [chunkTextGo, if_pos hs]
    rw [ih (start + cs - ov) hs2]

/-- The loop computes exactly the spec's windows (filtered by the blank-window
rule), provided the advance step is positive and the fuel covers the text. -/
theorem chunkTextGo_spec (text : List Char) (size overlap : Nat) (hov : overlap < size) :
    ∀ (fuel : Nat) (start : Nat), text.length - start < fuel →
      chunkTextGo text (size : Int) (overlap : Int) (start : Int) fuel =
        some ((specWindows text size overlap start).filter
          (fun c => !(pyStrip c).isEmpty)) := by
  intro fuel
  induction fuel with
  | zero => intro start h; exact absurd h (Nat.not_lt_zero _)
  | succ n ih =>
    intro start hfuel
    by_cases hs : start < text.length
    · have hsi : (start : Int) < (text.length : Int) := by exact_mod_cast hs
      have hstep : ((start : Int) + (size : Int)) - (overlap : Int) =
          ((start + (size - overlap) : Nat) : Int) := by omega
      have hrec : text.length - (start + (size - overlap)) < n := by omega
      rw [specWindows, dif_pos ⟨hov, hs⟩]
      simp only [chunkTextGo, if_pos hsi]
      rw [hstep, ih _ hrec, List.filter_cons]
      cases hk : (pyStrip (pySlice text (start : Int) ((start : Int) + (size : Int)))).isEmpty
      · simp [hk]
      · simp [hk]
    · have hsi : ¬ ((start : Int) < (text.length : Int)) := by exact_mod_cast hs
      rw [specWindows, dif_neg (by omega)]
      simp only [chunkTextGo, if_neg hsi]
      rfl

/-- Concrete 1000-character text with varied, non-blank content, used to
check chunk boundaries at the spec's example parameters. -/
def demoText : List Char := (List.range 1000).map (fun i => Char.ofNat (97 + i % 26))

set_option maxRecDepth 10000

/-- C2: the claim asserts that `chunk(text, size, overlap)` terminates on every
input, failing fast when `overlap >= size`.  The source has no such guard: with
`overlap >= size` the start position never increases, so for every non-empty
text the loop runs forever (the fuel-indexed loop returns `none` at every fuel
bound, in particular at the bound the wrapper uses). -/
theorem chunk_text_overlap_ge_size_diverges (text : List Char) (cs ov : Int)
    (hne : text ≠ []) (hle : cs ≤ ov) :
    ∀ fuel : Nat, chunkTextGo text cs ov 0 fuel = none := by
  intro fuel
  have hlen : 0 < text.length := List.length_pos.mpr hne
  exact chunkTextGo_stuck text cs ov hle fuel 0 (by exact_mod_cast hlen)

/-- Witness for C2: the one-character text with `size = overlap = 1` exhausts
a concrete fuel bound. -/
theorem chunk_text_overlap_ge_size_diverges_witness :
    chunkTextGo (List.replicate 1 'a') 1 1 0 5 = none :=
  chunk_text_overlap_ge_size_diverges (List.replicate 1 'a') 1 1 (by decide) (by decide) 5

/-- C7: with `overlap < size`, `chunk_text` produces exactly the windows
`text[start : start+size]` for `start = 0, size-overlap, 2*(size-overlap), ...`
while `start < length text`, keeping a window iff it is non-empty after
trimming whitespace; at `size=500, overlap=50` a non-blank 1000-character text
yields 3 chunks starting at 0, 450, 900, and a non-blank text of length 10
yields exactly one chunk equal to the full text. -/
theorem chunk_text_window_boundaries :
    (∀ (text : List Char) (size overlap : Nat), overlap < size →
      chunk_text text (size : Int) (overlap : Int) =
        some ((specWindows text size overlap 0).filter (fun c => !(pyStrip c).isEmpty)))
    ∧ chunk_text demoText = some
        [pySlice demoText 0 500, pySlice demoText 450 950, pySlice demoText 900 1400]
    ∧ chunk_text (demoText.take 10) = some [demoText.take 10] := by
  refine ⟨?_, ?_, ?_⟩
  · intro text size overlap hov
    exact chunkTextGo_spec text size overlap hov (text.length + 1) 0 (by omega)
  · decide
  · decide

/-- Metadata carried by every chunk record (recall.py lines 89-97). -/
structure Metadata where
  path : String
  filename : String
  chunk_idx : Nat
  hash : String
deriving DecidableEq, Inhabited

/-- One record of the vector store's collection. -/
structure ChunkRec where
  id : String
  embedding : List ℚ
  document : List Char
  metadata : Metadata
deriving DecidableEq, Inhabited

/-- Exception kind a Python file read can raise: a decode failure on binary
content, or an I/O failure on a file that passed the existence check.  The
source's bare `except:` does not distinguish them. -/
inductive PyExc
  | decodeErr
  | ioErr
deriving DecidableEq

/-- Observable state of one file-system path as `index_file` reads it:
`readText` is the outcome of `path.read_text()` and `hashRead` the outcome of
`file_hash` (`none` models an exception raised while re-reading the bytes). -/
structure FileView where
  pathAbs : String
  pathStr : String
  filename : String
  isFile : Bool
  readText : PyExc ⊕ List Char
  hashRead : Option String
deriving DecidableEq, Inhabited

/-- Result value `index_file` returns (a `status`/`reason`/`chunks` dict). -/
inductive IndexResult
  | skipped (reason : String)
  | indexed (chunks : Nat) (path : String)
deriving DecidableEq, Inhabited

/-- Record number `i` of a batch `add` (recall.py lines 88-104): id
`path::i`, embedding and document at position `i`, metadata with the
current fingerprint. -/
def mkRecord (file : FileView) (current_hash : String)
    (chunks : List (List Char)) (embeddings : List (List ℚ)) (i : Nat) : ChunkRec :=
  { id := file.pathAbs ++ "::" ++ toString i
  , embedding := embeddings.getD i []
  , document := chunks.getD i []
  , metadata :=
      { path := file.pathAbs, filename := file.filename
      , chunk_idx := i, hash := current_hash } }

/-- Chunk-embed-store tail of `index_file` (recall.py lines 80-106), reached
after the change-detection logic: chunks the text, embeds, and appends the new
records (the store's batch `add`). -/
def index_file_add (embedder : List (List Char) → List (List ℚ))
    (col : List ChunkRec) (file : FileView) (text : List Char)
    (current_hash : String) : Except Unit (IndexResult × List ChunkRec) :=
  let chunks := (chunk_text text).getD []
  if chunks.isEmpty then .ok (.skipped ("empty"), col)
  else
    let newRecs := (List.range chunks.length).map
      (mkRecord file current_hash chunks (embedder chunks))
    .ok (.indexed chunks.length file.pathStr, col ++ newRecs)

/-- Function `index_file(collection, embedder, file_path, force=False)`
(recall.py lines 56-106).  `Except.error` models an uncaught exception
propagating out of the call (the `file_hash` re-read raising). -/
def index_file (embedder : List (List Char) → List (List ℚ))
    (col : List ChunkRec) (file : FileView) (force : Bool) :
    Except Unit (IndexResult × List ChunkRec) :=
  if !file.isFile then .ok (.skipped ("not a file"), col)
  else
    match file.readText with
    | .inl _ => .ok (.skipped ("not text"), col)
    | .inr text =>
      match file.hashRead with
      | none => .error ()
      | some current_hash =>
        let existing := col.filter (fun r => r.metadata.path == file.pathAbs)
        if !existing.isEmpty && !force then
          if existing.head?.map (fun r => r.metadata.hash) == some current_hash then
            .ok (.skipped ("unchanged"), col)
          else
            index_file_add embedder
              (col.filter (fun r => !(existing.map (fun s => s.id)).contains r.id))
              file text current_hash
        else
          index_file_add embedder col file text current_hash

/-- Fixed embedder for concrete runs: a one-dimensional vector per chunk. -/
def embed0 : List (List Char) → List (List ℚ) := fun cs => cs.map (fun _ => [1])

/-- View of a file before modification: 1000 characters, fingerprint `h1`. -/
def fvOld : FileView :=
  { pathAbs := "/w/f.txt", pathStr := "/w/f.txt", filename := "f.txt"
  , isFile := true, readText := .inr demoText, hashRead := some ("h1") }

/-- View of the same path after its content changed: fingerprint `h2`. -/
def fvNew : FileView :=
  { pathAbs := "/w/f.txt", pathStr := "/w/f.txt", filename := "f.txt"
  , isFile := true, readText := .inr (("fresh content").toList), hashRead := some ("h2") }

/-- The three records indexing `fvOld` stores (windows at 0, 450, 900). -/
def oldRecs : List ChunkRec :=
  [ { id := "/w/f.txt::0", embedding := [1], document := pySlice demoText 0 500
    , metadata := { path := "/w/f.txt", filename := "f.txt", chunk_idx := 0, hash := "h1" } }
  , { id := "/w/f.txt::1", embedding := [1], document := pySlice demoText 450 950
    , metadata := { path := "/w/f.txt", filename := "f.txt", chunk_idx := 1, hash := "h1" } }
  , { id := "/w/f.txt::2", embedding := [1], document := pySlice demoText 900 1400
    , metadata := { path := "/w/f.txt", filename := "f.txt", chunk_idx := 2, hash := "h1" } } ]

/-- The single record re-indexing the changed content stores. -/
def newRec : ChunkRec :=
  { id := "/w/f.txt::0", embedding := [1], document := ("fresh content").toList
  , metadata := { path := "/w/f.txt", filename := "f.txt", chunk_idx := 0, hash := "h2" } }

/-- C1: the claim says every re-index deletes the path's existing records
before inserting.  The source deletes only under `not force`: re-indexing a
changed file with `force=True` appends the new records while all three stale
records (including one whose id collides with the new record's id) remain, so
the record set for the path does not reflect only the new chunking. -/
theorem index_file_force_true_keeps_stale_records :
    index_file embed0 [] fvOld false = .ok (.indexed 3 ("/w/f.txt"), oldRecs)
    ∧ index_file embed0 oldRecs fvNew true =
        .ok (.indexed 1 ("/w/f.txt"), oldRecs ++ [newRec])
    ∧ (oldRecs ++ [newRec]).filter (fun r => r.metadata.path == ("/w/f.txt")) ≠ [newRec] := by
  refine ⟨by rfl, by rfl, by decide⟩

/-- C4: the claim says all records sharing a `path` carry the same `hash` at
all times.  After indexing a file and force re-indexing its changed content,
the store holds records for the same path with fingerprints `h1` and `h2`. -/
theorem index_file_hash_invariant_violated :
    index_file embed0 [] fvOld false = .ok (.indexed 3 ("/w/f.txt"), oldRecs)
    ∧ index_file embed0 oldRecs fvNew true =
        .ok (.indexed 1 ("/w/f.txt"), oldRecs ++ [newRec])
    ∧ oldRecs.getD 0 default ∈ oldRecs ++ [newRec]
    ∧ newRec ∈ oldRecs ++ [newRec]
    ∧ (oldRecs.getD 0 default).metadata.path = newRec.metadata.path
    ∧ (oldRecs.getD 0 default).metadata.hash ≠ newRec.metadata.hash := by
  refine ⟨by rfl, by rfl, by decide, by decide, rfl, by decide⟩

/-- A successful `indexed` outcome of the add tail determines the chunk list,
the count, the reported path and the new store contents. -/
theorem index_file_add_ok (embedder : List (List Char) → List (List ℚ))
    (base : List ChunkRec) (file : FileView) (text : List Char) (ch : String)
    (n : Nat) (p : String) (col2 : List ChunkRec)
    (h : index_file_add embedder base file text ch = .ok (.indexed n p, col2)) :
    ∃ chunks, (chunk_text text).getD [] = chunks ∧ chunks ≠ [] ∧ n = chunks.length ∧
      col2 = base ++ (List.range chunks.length).map
        (mkRecord file ch chunks (embedder chunks)) := by
  simp only [index_file_add] at h
  by_cases hc : ((chunk_text text).getD []).isEmpty
  · rw [if_pos hc] at h
    simp at h
  · rw [if_neg hc] at h
    rw [Except.ok.injEq, Prod.mk.injEq, IndexResult.indexed.injEq] at h
    obtain ⟨⟨h1, h2⟩, h3⟩ := h
    exact ⟨(chunk_text text).getD [], rfl, by simpa [List.isEmpty_iff] using hc,
      h1.symm, h3.symm⟩

/-- Every record a batch add builds carries the file's path in its metadata. -/
theorem filter_newRecs_self (file : FileView) (ch : String)
    (chunks : List (List Char)) (es : List (List ℚ)) :
    ((List.range chunks.length).map (mkRecord file ch chunks es)).filter
        (fun r => r.metadata.path == file.pathAbs) =
      (List.range chunks.length).map (mkRecord file ch chunks es) := by
  apply List.filter_eq_self.mpr
  intro a ha
  obtain ⟨i, _, rfl⟩ := List.mem_map.mp ha
  simp [mkRecord]

/-- After the delete step removed every record whose id belongs to the path's
existing records, no record for the path survives. -/
theorem deleted_filter_nil (col : List ChunkRec) (pa : String) :
    ((col.filter (fun r =>
        !((col.filter (fun r2 => r2.metadata.path == pa)).map (fun s => s.id)).contains r.id)).filter
      (fun r => r.metadata.path == pa)) = [] := by
  apply List.filter_eq_nil_iff.mpr
  intro a ha hpa
  obtain ⟨hacol, hnc⟩ := List.mem_filter.mp ha
  have hmem : a ∈ col.filter (fun r2 => r2.metadata.path == pa) :=
    List.mem_filter.mpr ⟨hacol, hpa⟩
  have hid : a.id ∈ (col.filter (fun r2 => r2.metadata.path == pa)).map (fun s => s.id) :=
    List.mem_map_of_mem _ hmem
  simp [hid] at hnc

/-- On a readable text file the change-detection core of `index_file` is
reached: restatement with the environment outcomes substituted. -/
theorem index_file_core_eq (embedder : List (List Char) → List (List ℚ))
    (col : List ChunkRec) (file : FileView) (force : Bool)
    (text : List Char) (ch : String)
    (h1 : file.isFile = true) (h2 : file.readText = .inr text)
    (h3 : file.hashRead = some ch) :
    index_file embedder col file force =
      (if !(col.filter (fun r => r.metadata.path == file.pathAbs)).isEmpty && !force then
        if (col.filter (fun r => r.metadata.path == file.pathAbs)).head?.map
            (fun r => r.metadata.hash) == some ch then
          .ok (.skipped ("unchanged"), col)
        else
          index_file_add embedder
            (col.filter (fun r =>
              !((col.filter (fun r2 => r2.metadata.path == file.pathAbs)).map
                (fun s => s.id)).contains r.id))
            file text ch
      else index_file_add embedder col file text ch) := by
  unfold index_file
  rw [h1, h2, h3]
  rfl

/-- C5: indexing an unchanged file again without `force` returns
`skipped("unchanged")` after the fingerprint comparison, leaving the store
exactly as the first (successful, `indexed`) call left it. -/
theorem index_file_unchanged_skips (embedder : List (List Char) → List (List ℚ))
    (col col2 : List ChunkRec) (file : FileView) (n : Nat) (p : String)
    (h : index_file embedder col file false = .ok (.indexed n p, col2)) :
    index_file embedder col2 file false = .ok (.skipped ("unchanged"), col2) := by
  cases hisf : file.isFile with
  | false =>
    exfalso
    unfold index_file at h
    rw [hisf] at h
    simp at h
  | true =>
    cases hrt : file.readText with
    | inl e =>
      exfalso
      unfold index_file at h
      rw [hisf, hrt] at h
      simp at h
    | inr text =>
      cases hhr : file.hashRead with
      | none =>
        exfalso
        unfold index_file at h
        rw [hisf, hrt, hhr] at h
        simp at h
      | some ch =>
        rw [index_file_core_eq embedder col file false text ch hisf hrt hhr] at h
        rw [index_file_core_eq embedder col2 file false text ch hisf hrt hhr]
        by_cases hex : (col.filter (fun r => r.metadata.path == file.pathAbs)).isEmpty
        · rw [if_neg (by simp [hex])] at h
          obtain ⟨chunks, hch, hne, hn, hcol2⟩ :=
            index_file_add_ok embedder col file text ch n p col2 h
          subst hcol2
          have hnil : col.filter (fun r => r.metadata.path == file.pathAbs) = [] :=
            List.isEmpty_iff.mp hex
          rw [List.filter_append, hnil, List.nil_append, filter_newRecs_self]
          obtain ⟨c0, cs0, rfl⟩ := List.exists_cons_of_ne_nil hne
          simp [List.range_succ_eq_map, mkRecord]
        · rw [if_pos (by simp [Bool.not_eq_true] at hex; simp [hex])] at h
          by_cases hhd : (col.filter (fun r => r.metadata.path == file.pathAbs)).head?.map
              (fun r => r.metadata.hash) == some ch
          · rw [if_pos hhd] at h
            simp at h
          · rw [if_neg hhd] at h
            obtain ⟨chunks, hch, hne, hn, hcol2⟩ :=
              index_file_add_ok embedder _ file text ch n p col2 h
            subst hcol2
            rw [List.filter_append, deleted_filter_nil, List.nil_append, filter_newRecs_self]
            obtain ⟨c0, cs0, rfl⟩ := List.exists_cons_of_ne_nil hne
            simp [List.range_succ_eq_map, mkRecord]

/-- Witness for C5: re-indexing the unchanged 1000-character file right after
its first successful indexing is skipped and the store is untouched. -/
theorem index_file_unchanged_skips_witness :
    index_file embed0 oldRecs fvOld false = .ok (.skipped ("unchanged"), oldRecs) :=
  index_file_unchanged_skips embed0 [] oldRecs fvOld 3 ("/w/f.txt") (by rfl)

/-- View of a path that passes the existence check but whose read raises an
I/O error (both the text read and the fingerprint read fail). -/
def fvIOFail : FileView :=
  { pathAbs := "/w/g.txt", pathStr := "/w/g.txt", filename := "g.txt"
  , isFile := true, readText := .inl PyExc.ioErr, hashRead := none }

/-- Counterexample to C6: an I/O failure while reading a file that passed the
existence check is reported as `skipped("not text")` — the bare exception
handler around the text read does not distinguish I/O errors from decode
errors — contradicting the claim that such failures are Error outcomes. -/
theorem index_file_io_read_reported_skipped :
    index_file embed0 [] fvIOFail false = .ok (.skipped ("not text"), []) := by rfl

/-- C6 amended: any exception during the initial text read (decode or I/O) is
reported as `skipped("not text")`; only an I/O failure in the subsequent
fingerprint read propagates as an error. -/
theorem index_file_error_taxonomy :
    (∀ (embedder : List (List Char) → List (List ℚ)) (col : List ChunkRec)
        (file : FileView) (force : Bool) (k : PyExc),
      file.isFile = true → file.readText = .inl k →
      index_file embedder col file force = .ok (.skipped ("not text"), col))
    ∧ (∀ (embedder : List (List Char) → List (List ℚ)) (col : List ChunkRec)
        (file : FileView) (force : Bool) (text : List Char),
      file.isFile = true → file.readText = .inr text → file.hashRead = none →
      index_file embedder col file force = .error ()) := by
  constructor
  · intro embedder col file force k h1 h2
    unfold index_file
    rw [h1, h2]
    rfl
  · intro embedder col file force text h1 h2 h3
    unfold index_file
    rw [h1, h2, h3]
    rfl

/-- Default extension list of `index_directory` (recall.py line 111). -/
def default_extensions : List String :=
  [".md", ".txt", ".py", ".go", ".js", ".ts", ".json", ".yaml", ".yml"]

/-- Python `str.lower()` (ASCII behaviour suffices for extensions). -/
def pyLower (s : String) : String := String.mk (s.data.map Char.toLower)

/-- Python `s.startswith(pre)`. -/
def pyStartsWith (s pre : String) : Bool := pre.data.isPrefixOf s.data

/-- One path the directory scan's `rglob` enumeration yields: its segments
(`path.parts`, root segments included), its `path.suffix`, whether it is a
regular file, and the view `index_file` sees when called on it. -/
structure Entry where
  parts : List String
  suffix : String
  isFile : Bool
  view : FileView
deriving DecidableEq

/-- Candidate filter of the scan (recall.py lines 117-122): regular file with
an allowed extension (lower-cased), no hidden segment, and no
`node_modules` / `__pycache__` segment. -/
def entry_candidate (extensions : List String) (e : Entry) : Bool :=
  e.isFile && extensions.contains (pyLower e.suffix)
    && !(e.parts.any (fun part => pyStartsWith part (".")))
    && !(e.parts.contains ("node_modules")) && !(e.parts.contains ("__pycache__"))

/-- Aggregate result dict of `index_directory`. -/
structure DirResults where
  indexed : Nat
  skipped : Nat
  files : List IndexResult
deriving DecidableEq

/-- Test `result['status'] == 'indexed'` (recall.py line 125). -/
def isIndexedRes : IndexResult → Bool
  | .indexed _ _ => true
  | .skipped _ => false

/-- Scan loop of `index_directory` (recall.py lines 116-129): no handler
wraps the `index_file` call, so an `Except.error` it returns propagates and
ends the whole fold. -/
def index_directory_go (embedder : List (List Char) → List (List ℚ))
    (exts : List String) (force : Bool) :
    List Entry → List ChunkRec → DirResults → Except Unit (DirResults × List ChunkRec)
  | [], col, acc => .ok (acc, col)
  | e :: rest, col, acc =>
    if entry_candidate exts e then
      match index_file embedder col e.view force with
      | .error u => .error u
      | .ok (r, col2) =>
        index_directory_go embedder exts force rest col2
          (if isIndexedRes r then
            { indexed := acc.indexed + 1, skipped := acc.skipped, files := acc.files ++ [r] }
          else
            { indexed := acc.indexed, skipped := acc.skipped + 1, files := acc.files ++ [r] })
    else index_directory_go embedder exts force rest col acc

/-- Function `index_directory(collection, embedder, dir_path, extensions=None,
force=False)` (recall.py lines 108-131). -/
def index_directory (embedder : List (List Char) → List (List ℚ))
    (col : List ChunkRec) (entries : List Entry)
    (extensions : Option (List String)) (force : Bool) :
    Except Unit (DirResults × List ChunkRec) :=
  index_directory_go embedder (extensions.getD default_extensions) force entries col
    { indexed := 0, skipped := 0, files := [] }

/-- A call `index_file` raises out of exactly when the file passes the
existence check, its text read succeeds, and the fingerprint read raises. -/
def file_raises (f : FileView) : Bool :=
  f.isFile && (match f.readText with | .inl _ => false | .inr _ => true)
    && f.hashRead.isNone

/-- A raising view makes `index_file` propagate the exception. -/
theorem index_file_error_of_raises (embedder : List (List Char) → List (List ℚ))
    (col : List ChunkRec) (file : FileView) (force : Bool)
    (h : file_raises file = true) :
    index_file embedder col file force = .error () := by
  unfold file_raises at h
  cases hisf : file.isFile with
  | false => rw [hisf] at h; simp at h
  | true =>
    cases hrt : file.readText with
    | inl e => rw [hisf, hrt] at h; simp at h
    | inr text =>
      cases hhr : file.hashRead with
      | some ch => rw [hisf, hrt, hhr] at h; simp at h
      | none =>
        unfold index_file
        rw [hisf, hrt, hhr]
        rfl

/-- A non-raising view makes `index_file` return a value. -/
theorem index_file_ok_of_not_raises (embedder : List (List Char) → List (List ℚ))
    (col : List ChunkRec) (file : FileView) (force : Bool)
    (h : file_raises file = false) :
    ∃ r col2, index_file embedder col file force = .ok (r, col2) := by
  cases hisf : file.isFile with
  | false =>
    refine ⟨.skipped ("not a file"), col, ?_⟩
    unfold index_file
    rw [hisf]
    rfl
  | true =>
    cases hrt : file.readText with
    | inl e =>
      refine ⟨.skipped ("not text"), col, ?_⟩
      unfold index_file
      rw [hisf, hrt]
      rfl
    | inr text =>
      cases hhr : file.hashRead with
      | none =>
        exfalso
        unfold file_raises at h
        rw [hisf, hrt, hhr] at h
        simp at h
      | some ch =>
        have hadd : ∀ base, ∃ r c2,
            index_file_add embedder base file text ch = .ok (r, c2) := by
          intro base
          simp only [index_file_add]
          by_cases hc : ((chunk_text text).getD []).isEmpty
          · exact ⟨_, _, by rw [if_pos hc]⟩
          · exact ⟨_, _, by rw [if_neg hc]⟩
        rw [index_file_core_eq embedder col file force text ch hisf hrt hhr]
        by_cases h1 : (!(col.filter (fun r => r.metadata.path == file.pathAbs)).isEmpty
            && !force) = true
        · rw [if_pos h1]
          by_cases h2 : ((col.filter (fun r => r.metadata.path == file.pathAbs)).head?.map
              (fun r => r.metadata.hash) == some ch) = true
          · rw [if_pos h2]
            exact ⟨_, _, rfl⟩
          · rw [if_neg h2]
            exact hadd _
        · rw [if_neg h1]
          exact hadd _

/-- If some candidate's `index_file` call raises, the fold returns the
propagated error, whatever came before. -/
theorem index_directory_go_error (embedder : List (List Char) → List (List ℚ))
    (exts : List String) (force : Bool) :
    ∀ (entries : List Entry) (col : List ChunkRec) (acc : DirResults),
      (entries.any (fun e => entry_candidate exts e && file_raises e.view)) = true →
      index_directory_go embedder exts force entries col acc = .error () := by
  intro entries
  induction entries with
  | nil => intro col acc h; simp at h
  | cons e rest ih =>
    intro col acc h
    rw [List.any_cons] at h
    by_cases hc : entry_candidate exts e = true
    · simp only [index_directory_go, if_pos hc]
      by_cases hr : file_raises e.view = true
      · rw [index_file_error_of_raises embedder col e.view force hr]
      · have hr2 : file_raises e.view = false := by simpa using hr
        obtain ⟨r, col2, hok⟩ := index_file_ok_of_not_raises embedder col e.view force hr2
        rw [hok]
        have hrest : (rest.any (fun e2 => entry_candidate exts e2 && file_raises e2.view)) = true := by
          simp [hc, hr2] at h
          simpa using h
        exact ih col2 _ hrest
    · simp only [index_directory_go, if_neg hc]
      have hc2 : entry_candidate exts e = false := by simpa using hc
      have hrest : (rest.any (fun e2 => entry_candidate exts e2 && file_raises e2.view)) = true := by
        simp [hc2] at h
        simpa using h
      exact ih col acc hrest

/-- If no candidate raises, the fold completes and appends one per-file
result for every candidate. -/
theorem index_directory_go_ok (embedder : List (List Char) → List (List ℚ))
    (exts : List String) (force : Bool) :
    ∀ (entries : List Entry) (col : List ChunkRec) (acc : DirResults),
      (entries.all (fun e => !(entry_candidate exts e && file_raises e.view))) = true →
      ∃ res col2, index_directory_go embedder exts force entries col acc = .ok (res, col2) ∧
        res.files.length = acc.files.length
          + (entries.filter (fun e => entry_candidate exts e)).length := by
  intro entries
  induction entries with
  | nil => intro col acc _; exact ⟨acc, col, rfl, by simp⟩
  | cons e rest ih =>
    intro col acc h
    rw [List.all_cons] at h
    obtain ⟨he, hrest⟩ := by simpa using h
    by_cases hc : entry_candidate exts e = true
    · have hr2 : file_raises e.view = false := by
        cases hfr : file_raises e.view with
        | false => rfl
        | true => rw [hc, hfr] at he; simp at he
      obtain ⟨r, col2, hok⟩ := index_file_ok_of_not_raises embedder col e.view force hr2
      obtain ⟨res, col3, heq, hlen⟩ := ih col2
        (if isIndexedRes r then
          { indexed := acc.indexed + 1, skipped := acc.skipped, files := acc.files ++ [r] }
        else
          { indexed := acc.indexed, skipped := acc.skipped + 1, files := acc.files ++ [r] })
        (by simpa using hrest)
      refine ⟨res, col3, ?_, ?_⟩
      · simp only [index_directory_go, if_pos hc]
        rw [hok]
        exact heq
      · rw [hlen, List.filter_cons, hc]
        cases hi : isIndexedRes r
        · simp [hi]
          omega
        · simp [hi]
          omega
    · have hc2 : entry_candidate exts e = false := by simpa using hc
      obtain ⟨res, col3, heq, hlen⟩ := ih col acc (by simpa using hrest)
      refine ⟨res, col3, ?_, ?_⟩
      · simp only [index_directory_go, if_neg hc]
        exact heq
      · rw [hlen, List.filter_cons, hc2]
        simp

/-- C3 amended: an error raised while indexing one candidate is not caught
inside the scan: it propagates and aborts the remainder (first conjunct);
only when no candidate raises does the scan visit every candidate, recording
one per-file result each — skips never abort the batch (second conjunct). -/
theorem index_directory_error_propagation :
    (∀ (embedder : List (List Char) → List (List ℚ)) (col : List ChunkRec)
        (entries : List Entry) (exts : Option (List String)) (force : Bool),
      (entries.any (fun e => entry_candidate (exts.getD default_extensions) e
          && file_raises e.view)) = true →
      index_directory embedder col entries exts force = .error ())
    ∧ (∀ (embedder : List (List Char) → List (List ℚ)) (col : List ChunkRec)
        (entries : List Entry) (exts : Option (List String)) (force : Bool),
      (entries.all (fun e => !(entry_candidate (exts.getD default_extensions) e
          && file_raises e.view))) = true →
      ∃ res col2, index_directory embedder col entries exts force = .ok (res, col2) ∧
        res.files.length =
          (entries.filter (fun e => entry_candidate (exts.getD default_extensions) e)).length) := by
  constructor
  · intro embedder col entries exts force h
    exact index_directory_go_error embedder _ force entries col _ h
  · intro embedder col entries exts force h
    obtain ⟨res, col2, heq, hlen⟩ := index_directory_go_ok embedder _ force entries col _ h
    exact ⟨res, col2, heq, by simpa using hlen⟩

/-- View of a directory (or other non-file) entry the scan walks past. -/
def dirView (p : String) : FileView :=
  { pathAbs := p, pathStr := p, filename := ""
  , isFile := false, readText := .inl PyExc.decodeErr, hashRead := none }

/-- First candidate of the aborting scan: indexes fine. -/
def entGood : Entry :=
  { parts := ["ws", "a.py"], suffix := ".py", isFile := true
  , view := { pathAbs := "/ws/a.py", pathStr := "ws/a.py", filename := "a.py"
            , isFile := true, readText := .inr (("print hello").toList)
            , hashRead := some ("ha") } }

/-- Second candidate: its fingerprint read raises an I/O error. -/
def entBad : Entry :=
  { parts := ["ws", "b.py"], suffix := ".py", isFile := true
  , view := { pathAbs := "/ws/b.py", pathStr := "ws/b.py", filename := "b.py"
            , isFile := true, readText := .inr (("boom").toList)
            , hashRead := none } }

/-- Third candidate: never reached by the aborting scan. -/
def entAfter : Entry :=
  { parts := ["ws", "c.py"], suffix := ".py", isFile := true
  , view := { pathAbs := "/ws/c.py", pathStr := "ws/c.py", filename := "c.py"
            , isFile := true, readText := .inr (("after").toList)
            , hashRead := some ("hc") } }

/-- Counterexample to C3: with three candidates whose second raises during
indexing, the whole scan returns the propagated error — no per-file result is
recorded for the failing file and the third candidate is never visited,
contradicting the claim that such errors never abort the remainder. -/
theorem index_directory_abort_cex :
    index_directory embed0 [] [entGood, entBad, entAfter] (some [".py"]) false
      = .error () := by rfl

/-- Candidate file `a.py` of the traversal-filtering scenario. -/
def entA : Entry :=
  { parts := ["ws", "a.py"], suffix := ".py", isFile := true
  , view := { pathAbs := "/ws/a.py", pathStr := "ws/a.py", filename := "a.py"
            , isFile := true, readText := .inr (("hello from a").toList)
            , hashRead := some ("ha") } }

/-- The hidden directory `.hidden` itself. -/
def entHiddenDir : Entry :=
  { parts := ["ws", ".hidden"], suffix := "", isFile := false
  , view := dirView ("/ws/.hidden") }

/-- The file `.hidden/b.py`, excluded by the hidden-segment rule. -/
def entHiddenB : Entry :=
  { parts := ["ws", ".hidden", "b.py"], suffix := ".py", isFile := true
  , view := { pathAbs := "/ws/.hidden/b.py", pathStr := "ws/.hidden/b.py"
            , filename := "b.py", isFile := true
            , readText := .inr (("hidden b").toList), hashRead := some ("hb") } }

/-- The directory `node_modules` itself. -/
def entNodeDir : Entry :=
  { parts := ["ws", "node_modules"], suffix := "", isFile := false
  , view := dirView ("/ws/node_modules") }

/-- The file `node_modules/c.js`, excluded by the cache-directory rule. -/
def entNodeC : Entry :=
  { parts := ["ws", "node_modules", "c.js"], suffix := ".js", isFile := true
  , view := { pathAbs := "/ws/node_modules/c.js", pathStr := "ws/node_modules/c.js"
            , filename := "c.js", isFile := true
            , readText := .inr (("var c").toList), hashRead := some ("hcjs") } }

/-- The record the traversal-filtering scan stores for `a.py`. -/
def aRec : ChunkRec :=
  { id := "/ws/a.py::0", embedding := [1], document := ("hello from a").toList
  , metadata := { path := "/ws/a.py", filename := "a.py", chunk_idx := 0, hash := "ha" } }

/-- C9: scanning a tree holding `a.py`, `.hidden/b.py` and `node_modules/c.js`
with allowed extensions `.py`/`.js` passes exactly `a.py` through the
candidate filter, and the scan indexes exactly that one file. -/
theorem index_directory_traversal_filtering :
    ([entA, entHiddenDir, entHiddenB, entNodeDir, entNodeC].filter
        (fun e => entry_candidate [".py", ".js"] e)) = [entA]
    ∧ index_directory embed0 [] [entA, entHiddenDir, entHiddenB, entNodeDir, entNodeC]
        (some [".py", ".js"]) false =
      .ok ({ indexed := 1, skipped := 0, files := [.indexed 1 ("ws/a.py")] }, [aRec]) := by
  refine ⟨by decide, by rfl⟩

/-- Response of the store's nearest-neighbour query for one query embedding
(the inner lists of chroma's parallel-array result): ids, documents,
metadatas and distances, aligned by position, nearest first. -/
structure QueryResponse where
  ids : List String
  documents : List (List Char)
  metadatas : List Metadata
  distances : List ℚ
deriving DecidableEq, Inhabited

/-- One formatted search result dict (recall.py lines 147-154). -/
structure SearchResult where
  id : String
  score : ℚ
  text : List Char
  path : String
  filename : String
  chunk_idx : Nat
deriving DecidableEq, Inhabited

/-- Result-formatting loop of `search` (recall.py lines 143-154): iterate the
positions of the returned ids, converting distance `d` to score `1 - d`. -/
def search_results (resp : QueryResponse) : List SearchResult :=
  if resp.ids.isEmpty then []
  else
    (List.range resp.ids.length).map (fun i =>
      { id := resp.ids.getD i ""
      , score := 1 - resp.distances.getD i 0
      , text := resp.documents.getD i []
      , path := (resp.metadatas.getD i default).path
      , filename := (resp.metadatas.getD i default).filename
      , chunk_idx := (resp.metadatas.getD i default).chunk_idx })

/-- Function `search(collection, embedder, query, limit=5)` (recall.py lines
133-156): embed the query (single item), ask the store for the `limit`
nearest records, format. -/
def search (embedder : List (List Char) → List (List ℚ))
    (store_query : List (List ℚ) → Nat → QueryResponse)
    (query : List Char) (limit : Nat) : List SearchResult :=
  search_results (store_query (embedder [query]) limit)

/-- C8: each result the store returns with distance `d` is reported with
score `1 - d`, in exactly the store's order, with fields id, score, text,
path, filename, chunk_idx; an empty store response yields the empty list. -/
theorem search_result_formatting :
    (∀ (embedder : List (List Char) → List (List ℚ))
        (store_query : List (List ℚ) → Nat → QueryResponse)
        (query : List Char) (limit : Nat),
      search embedder store_query query limit =
        search_results (store_query (embedder [query]) limit))
    ∧ (∀ resp : QueryResponse, (search_results resp).length = resp.ids.length)
    ∧ (∀ (resp : QueryResponse) (i : Nat), i < resp.ids.length →
        (search_results resp).getD i default =
          { id := resp.ids.getD i ""
          , score := 1 - resp.distances.getD i 0
          , text := resp.documents.getD i []
          , path := (resp.metadatas.getD i default).path
          , filename := (resp.metadatas.getD i default).filename
          , chunk_idx := (resp.metadatas.getD i default).chunk_idx })
    ∧ (∀ resp : QueryResponse, resp.ids = [] → search_results resp = []) := by
  refine ⟨fun _ _ _ _ => rfl, ?_, ?_, ?_⟩
  · intro resp
    by_cases hid : resp.ids.isEmpty
    · rw [search_results, if_pos hid]
      simp [List.isEmpty_iff.mp hid]
    · rw [search_results, if_neg hid]
      simp
  · intro resp i hi
    have hid : ¬ resp.ids.isEmpty = true := by
      intro hc
      rw [List.isEmpty_iff.mp hc] at hi
      simp at hi
    rw [search_results, if_neg hid]
    rw [List.getD, List.get?_map, List.get?_range hi]
    rfl
  · intro resp h
    rw [search_results, if_pos (by simp [h])]

/-- Environment the dispatcher's collaborators live in: the embedder, the
persistent store a fresh `init` opens, and the file-system and query oracles
behind the per-command arguments. -/
structure Env where
  homeDb : String
  initStore : String → List ChunkRec
  embed : List (List Char) → List (List ℚ)
  resolve : String → FileView
  listDir : String → List Entry
  store_query : List ChunkRec → List (List ℚ) → Nat → QueryResponse

/-- Parsed commands of `handle_command` (recall.py lines 158-208), payloads
already extracted from the request dict. -/
inductive Cmd
  | initCmd (db_path : Option String)
  | indexFileCmd (path : String) (force : Bool)
  | indexDirCmd (path : String) (extensions : Option (List String)) (force : Bool)
  | searchCmd (query : List Char) (limit : Nat)
  | statsCmd
  | clearCmd
  | quitCmd
  | unknownCmd (s : String)

/-- Response dicts `handle_command` can return; `errResp msg` stands for
`{"status": "error", "error": msg}` and `okResp` for the bare
`{"status": "ok"}` the clear branch returns. -/
inductive Response
  | initOk (db_path : String) (count : Nat)
  | fileRes (r : IndexResult)
  | dirRes (r : DirResults)
  | searchOk (results : List SearchResult)
  | statsOk (count : Nat)
  | okResp
  | bye
  | errResp (msg : String)
deriving DecidableEq

/-- Function `handle_command(cmd)` (recall.py lines 158-208), with the global
`_collection` modelled as `Option (List ChunkRec)` state (`none` =
uninitialized) threaded in and out; `Except.error` models an exception
escaping to the main loop's handler. -/
def handle_command (env : Env) (st : Option (List ChunkRec)) :
    Cmd → Except Unit (Response × Option (List ChunkRec))
  | .initCmd dbp =>
    let db_path := dbp.getD env.homeDb
    let c := st.getD (env.initStore db_path)
    .ok (.initOk db_path c.length, some c)
  | .indexFileCmd p force =>
    match st with
    | none => .ok (.errResp ("not initialized"), none)
    | some c =>
      match index_file env.embed c (env.resolve p) force with
      | .error u => .error u
      | .ok (r, c2) => .ok (.fileRes r, some c2)
  | .indexDirCmd p exts force =>
    match st with
    | none => .ok (.errResp ("not initialized"), none)
    | some c =>
      match index_directory env.embed c (env.listDir p) exts force with
      | .error u => .error u
      | .ok (res, c2) => .ok (.dirRes res, some c2)
  | .searchCmd q limit =>
    match st with
    | none => .ok (.errResp ("not initialized"), none)
    | some c => .ok (.searchOk (search env.embed (env.store_query c) q limit), some c)
  | .statsCmd =>
    match st with
    | none => .ok (.errResp ("not initialized"), none)
    | some c => .ok (.statsOk c.length, some c)
  | .clearCmd =>
    match st with
    | none => .ok (.okResp, none)
    | some c =>
      let all_ids := c.map (fun r => r.id)
      let c2 := if all_ids.isEmpty then c else c.filter (fun r => !all_ids.contains r.id)
      .ok (.okResp, some c2)
  | .quitCmd => .ok (.bye, st)
  | .unknownCmd s => .ok (.errResp ("unknown command: " ++ s), st)

/-- C10: on an uninitialized store, `clear` answers `{"status": "ok"}` while
touching nothing, whereas `index_file`, `index_dir`, `search` and `stats` all
answer the `"not initialized"` error — `clear` is the one store-touching
command that does not report the uninitialized condition. -/
theorem handle_command_uninitialized_behavior :
    (∀ env : Env, handle_command env none .clearCmd = .ok (.okResp, none))
    ∧ (∀ (env : Env) (p : String) (f : Bool),
        handle_command env none (.indexFileCmd p f) = .ok (.errResp ("not initialized"), none))
    ∧ (∀ (env : Env) (p : String) (e : Option (List String)) (f : Bool),
        handle_command env none (.indexDirCmd p e f) = .ok (.errResp ("not initialized"), none))
    ∧ (∀ (env : Env) (q : List Char) (l : Nat),
        handle_command env none (.searchCmd q l) = .ok (.errResp ("not initialized"), none))
    ∧ (∀ env : Env, handle_command env none .statsCmd = .ok (.errResp ("not initialized"), none)) :=
  ⟨fun _ => rfl, fun _ _ _ => rfl, fun _ _ _ _ => rfl, fun _ _ _ => rfl, fun _ => rfl⟩

end Recall
